import Mathlib

/-!
# NetTag configuration registry — verification development

Shallow embedding of the NetTag server's configuration subsystem:

* the filename / path-fragment validator (`isValidFilename`,
  `hasTraversalSequences`) from `src/server/util/validation.ts`;
* the setting builders and the concrete setting registry
  (`buildSetting`, `buildPathFragmentSetting`, `settingTable`) from
  `src/server/models/serversettings/settingsModel.ts`;
* the `ConfigService` facade (`instantiate`, `get`, `set`) from
  `src/server/services/configService.ts`, with the persistent store and
  the process environment passed explicitly.

JavaScript values flowing through validation are modelled by the
inductive `JsonValue` (JSON numbers are restricted to integers: no
setting in this program carries numeric data, so float semantics are
never exercised).  A field access `obj?.field` returning `undefined`
is modelled by `Option`.  Exceptions are modelled by `Except String`.
The platform probe (`process.platform === "win32" ||
parseEnv("ENFORCE_WINDOWS_FILENAMES") === true`) is a single boolean
parameter `enfW` threaded through the definitions.
-/

/-- JSON-like runtime values.  Numbers are restricted to integers: the
settings of this program only carry booleans, strings, arrays and
objects, so the restriction is never exercised by a claim. -/
inductive JsonValue where
  | null : JsonValue
  | bool : Bool → JsonValue
  | num : Int → JsonValue
  | str : String → JsonValue
  | arr : List JsonValue → JsonValue
  | obj : List (String × JsonValue) → JsonValue

namespace NetTag

/-- Field access `obj["f"]`: first binding wins, `none` models
JavaScript's `undefined` for a missing field. -/
def getField (fields : List (String × JsonValue)) (name : String) : Option JsonValue :=
  match fields with
  | [] => none
  | (k, v) :: rest => if k = name then some v else getField rest name

/-- `typeof x === "boolean"` on an optional field value. -/
def isBoolField (v : Option JsonValue) : Bool :=
  match v with
  | some (.bool _) => true
  | _ => false

/-- `isObject` from `util/validation.ts`: an object, excluding arrays
and `null`.  The untyped `partialObjGuard` used by the current
`settingsModel.ts` performs the same runtime test (the spec: "input
must be an object (not array, not null)"). -/
def isObject (v : JsonValue) : Bool :=
  match v with
  | .obj _ => true
  | _ => false

/-! ## Filename validator (`util/validation.ts`) -/

/-- The ASCII control characters 1–31, forbidden under Windows rules. -/
def winControlChars : List Char :=
  (List.range 31).map (fun i => Char.ofNat (i + 1))

/-- Forbidden-character set assembled by `isValidFilename`'s regex:
`\0`, the blocked slashes, and the Windows-only printable characters
and control characters. -/
def forbiddenChars (enfW allowSubDir interchangableSlashes : Bool) : List Char :=
  let blockedSlashes :=
    if !allowSubDir then
      ['/'] ++ (if enfW || interchangableSlashes then ['\\'] else [])
    else []
  let winForbiddenInternal :=
    if enfW then ['<', '>', ':', '"', '|', '?', '*'] ++ winControlChars else []
  '\x00' :: (blockedSlashes ++ winForbiddenInternal)

/-- The Windows-only suffix rule `([ \.]$)`: the candidate's last
character is a space or a dot. -/
def badWinSuffix (s : String) : Bool :=
  match s.data.getLast? with
  | some c => c = ' ' || c = '.'
  | none => false

/-- `isValidFilename(testStr, allowSubDir = false, interchangableSlashes = true)`
from `util/validation.ts`.  `enfW` stands for the Windows-compatibility
rule state (`process.platform === "win32" ||
parseEnv("ENFORCE_WINDOWS_FILENAMES") === true`).  The regex
`[\0 blockedSlashes winForbiddenInternal] | ([ \.]$)` matches iff some
character of the string is in the assembled set, or Windows rules are
active and the string ends in space or dot. -/
def isValidFilename (enfW : Bool) (testStr : String)
    (allowSubDir : Bool := false) (interchangableSlashes : Bool := true) : Bool :=
  testStr ≠ "" &&
  testStr ≠ "." &&
  testStr ≠ ".." &&
  !(testStr.data.any (fun c => c ∈ forbiddenChars enfW allowSubDir interchangableSlashes)) &&
  !(enfW && badWinSuffix testStr)

/-- Occurrence of `pat` as a contiguous substring of `l`. -/
def occursIn (pat : List Char) (l : List Char) : Bool :=
  match l with
  | [] => pat = []
  | _ :: t => pat.isPrefixOf l || occursIn pat t

/-- `hasTraversalSequences(testStr, checkWindowsSequences = true)` from
`util/validation.ts`: the regexes `(\.\/)|(\.\.\/)` and
`(\.\\)|(\.\.\\)` match iff the literal substrings occur. -/
def hasTraversalSequences (testStr : String) (checkWindowsSequences : Bool := true) : Bool :=
  let nixMatch := occursIn "./".data testStr.data || occursIn "../".data testStr.data
  let winMatch := occursIn ".\\".data testStr.data || occursIn "..\\".data testStr.data
  nixMatch || (checkWindowsSequences && winMatch)

/-! ## Diagnostics serializer (`util/helpers.ts` `stringify`)

The source's `stringify` wraps `JSON.stringify(value, null, " ")` and
collapses its newlines and indentation into single spaces.  The
rendering below reproduces that one-line format (whitespace of deeply
nested structures is approximated; no claim depends on it). -/

mutual

def stringifyVal : JsonValue → String
  | .null => "null"
  | .bool true => "true"
  | .bool false => "false"
  | .num n => toString n
  | .str s => "\"" ++ s ++ "\""
  | .arr [] => "[]"
  | .arr es => "[ " ++ stringifyItems es ++ "]"
  | .obj [] => "\x7b\x7d"
  | .obj fs => "\x7b " ++ stringifyFields fs ++ " \x7d"

def stringifyItems : List JsonValue → String
  | [] => ""
  | [e] => stringifyVal e
  | e :: rest => stringifyVal e ++ ", " ++ stringifyItems rest

def stringifyFields : List (String × JsonValue) → String
  | [] => ""
  | [(k, v)] => "\"" ++ k ++ "\": " ++ stringifyVal v
  | (k, v) :: rest => "\"" ++ k ++ "\": " ++ stringifyVal v ++ ", " ++ stringifyFields rest

end

/-- `stringify(value)` with the default arguments used by the config
service (`space = " "`, `useNewlines = false`). -/
def stringify (v : JsonValue) : String := stringifyVal v

/-! ## Setting builders and the concrete registry
(`models/serversettings/settingsModel.ts`) -/

/-- A `Setting` record: validation predicate, derived cast, fallback
environment variable name, and diagnostic shape string. -/
structure Setting where
  validate : JsonValue → Bool
  cast : JsonValue → Except String JsonValue
  envVar : String
  shapeDebugStr : String

/-- `buildSetting(validateFn, envVar, shapeDebugStr)`: `cast` returns
its input unchanged when `validateFn` accepts it and otherwise throws a
`TypeError` embedding the stringified value and the shape string. -/
def buildSetting (validateFn : JsonValue → Bool) (envVar shapeDebugStr : String) : Setting where
  validate := validateFn
  cast := fun data =>
    if validateFn data then .ok data
    else .error ("Cast failed: value " ++ stringify data ++
      " does not match expected shape " ++ shapeDebugStr ++ ".")
  envVar := envVar
  shapeDebugStr := shapeDebugStr

/-- `fragment?.data === ""`: the `data` field holds the empty string. -/
def dataFieldIsEmptyStr (v : Option JsonValue) : Bool :=
  match v with
  | some (.str s) => s = ""
  | _ => false

/-- The per-element check inside `buildPathFragmentSetting`'s
validator: the element must be an object whose `caseSensitive` and
`interchangeableSlashes` fields are booleans; an empty `data` string is
rejected outright when `allowEmptyStr` is false; otherwise `data` must
be a string accepted by `isValidFilename` under the element's own
`interchangeableSlashes` flag and the setting's `allowSubDir`. -/
def fragmentValid (enfW allowSubDir allowEmptyStr : Bool) (fragment : JsonValue) : Bool :=
  match fragment with
  | .obj fields =>
    if !(isBoolField (getField fields "caseSensitive") &&
         isBoolField (getField fields "interchangeableSlashes")) then
      false
    else if !allowEmptyStr && dataFieldIsEmptyStr (getField fields "data") then
      false
    else
      match getField fields "data", getField fields "interchangeableSlashes" with
      | some (.str d), some (.bool isl) => isValidFilename enfW d allowSubDir isl
      | _, _ => false
  | _ => false

/-- The whole-value validator of `buildPathFragmentSetting`: an object
(not array, not `null`) with boolean `whitelist` and array
`pathFragments`, a non-empty list when `whitelist` is true, and every
element accepted by `fragmentValid`. -/
def pathFragmentValidate (enfW allowSubDir allowEmptyStr : Bool) (data : JsonValue) : Bool :=
  match data with
  | .obj fields =>
    match getField fields "whitelist", getField fields "pathFragments" with
    | some (.bool wl), some (.arr frags) =>
      !(wl && frags.length == 0) &&
      frags.all (fragmentValid enfW allowSubDir allowEmptyStr)
    | _, _ => false
  | _ => false

/-- `buildPathFragmentSetting(envVar, allowSubDir, allowEmptyStr)`. -/
def buildPathFragmentSetting (enfW : Bool) (envVar : String)
    (allowSubDir allowEmptyStr : Bool) : Setting :=
  buildSetting (pathFragmentValidate enfW allowSubDir allowEmptyStr) envVar
    "\x7b whitelist: boolean; caseSensitive: boolean; pathFragments: Array<string> \x7d"

/-- `typeof data === "boolean"`, the validator of the two plain boolean
settings. -/
def isBooleanValue (data : JsonValue) : Bool :=
  match data with
  | .bool _ => true
  | _ => false

/-- The concrete registry passed to `buildSettingTable` in
`settingsModel.ts`, in declaration order. -/
def settingTable (enfW : Bool) : List (String × Setting) :=
  [("trackedExtensions", buildPathFragmentSetting enfW "TRACKED_EXTENSIONS" false true),
   ("trackedFilenames", buildPathFragmentSetting enfW "TRACKED_FILENAMES" false false),
   ("trackedDirectories", buildPathFragmentSetting enfW "TRACKED_DIRECTORIES" true false),
   ("interchangeableSlashes", buildSetting isBooleanValue "INTERCHANGEABLE_SLASHES" "boolean"),
   ("enableThumbnailCache", buildSetting isBooleanValue "ENABLE_THUMBNAIL_CACHE" "boolean")]

/-- `getKeys()` from `buildSettingTable`: `Object.keys(table)` in
insertion order. -/
def getKeys (enfW : Bool) : List String := (settingTable enfW).map Prod.fst

/-- `hasKey(key)` from `buildSettingTable`:
`Object.keys(table).includes(key)`. -/
def hasKey (enfW : Bool) (key : String) : Bool := (getKeys enfW).contains key

/-- `getSetting(key)` from `buildSettingTable`: `table[key]`, `none`
modelling `undefined` for a key outside the table. -/
def getSetting (enfW : Bool) (key : String) : Option Setting :=
  List.lookup key (settingTable enfW)

/-! ## `JSON.parse` model

`parseEnv` hands environment text to the runtime's `JSON.parse`, which
throws a `SyntaxError` on unparsable text.  The recursive-descent
parser below models it on the JSON fragment this program can ever
receive (literals, integers, strings with simple escapes, arrays,
objects); fuel makes the recursion structural. -/

/-- Drop leading JSON whitespace. -/
def skipWs : List Char → List Char
  | [] => []
  | c :: cs => if c = ' ' || c = '\t' || c = '\n' || c = '\r' then skipWs cs else c :: cs

/-- Value of a digit list, most significant first. -/
def digitsToNat (ds : List Char) : Nat :=
  ds.foldl (fun acc c => acc * 10 + (c.toNat - 48)) 0

/-- Parse a non-empty run of digits. -/
def parseDigits (cs : List Char) : Option (Nat × List Char) :=
  let ds := cs.takeWhile Char.isDigit
  if ds.isEmpty then none else some (digitsToNat ds, cs.drop ds.length)

/-- Parse the body of a JSON string after its opening quote, up to and
including the closing quote. -/
def parseStringBody : Nat → List Char → Option (String × List Char)
  | 0, _ => none
  | _, [] => none
  | fuel + 1, c :: rest =>
    if c = '"' then some ("", rest)
    else if c = '\\' then
      match rest with
      | [] => none
      | e :: rest2 =>
        let ec := if e = 'n' then '\n' else if e = 't' then '\t'
          else if e = 'r' then '\r' else e
        (parseStringBody fuel rest2).map (fun p => (⟨ec :: p.1.data⟩, p.2))
    else (parseStringBody fuel rest).map (fun p => (⟨c :: p.1.data⟩, p.2))

mutual

def parseJsonVal : Nat → List Char → Option (JsonValue × List Char)
  | 0, _ => none
  | fuel + 1, cs =>
    match skipWs cs with
    | 'n' :: 'u' :: 'l' :: 'l' :: rest => some (.null, rest)
    | 't' :: 'r' :: 'u' :: 'e' :: rest => some (.bool true, rest)
    | 'f' :: 'a' :: 'l' :: 's' :: 'e' :: rest => some (.bool false, rest)
    | '"' :: rest =>
      (parseStringBody (rest.length + 1) rest).map (fun p => (.str p.1, p.2))
    | '[' :: rest =>
      (match skipWs rest with
       | ']' :: rest2 => some (.arr [], rest2)
       | rest2 => (parseArrItems fuel rest2).map (fun p => (.arr p.1, p.2)))
    | '-' :: rest =>
      (parseDigits rest).map (fun p => (.num (-(p.1 : Int)), p.2))
    | c :: rest =>
      if c = '\x7b' then
        match skipWs rest with
        | c2 :: rest2 =>
          if c2 = '\x7d' then some (.obj [], rest2)
          else (parseObjFields fuel (c2 :: rest2)).map (fun p => (.obj p.1, p.2))
        | [] => none
      else if c.isDigit then
        (parseDigits (c :: rest)).map (fun p => (.num (p.1 : Int), p.2))
      else none
    | [] => none

def parseArrItems : Nat → List Char → Option (List JsonValue × List Char)
  | 0, _ => none
  | fuel + 1, cs =>
    match parseJsonVal fuel cs with
    | none => none
    | some (v, r) =>
      match skipWs r with
      | ',' :: r2 => (parseArrItems fuel r2).map (fun p => (v :: p.1, p.2))
      | ']' :: r2 => some ([v], r2)
      | _ => none

def parseObjFields : Nat → List Char → Option (List (String × JsonValue) × List Char)
  | 0, _ => none
  | fuel + 1, cs =>
    match skipWs cs with
    | '"' :: rest =>
      match parseStringBody (rest.length + 1) rest with
      | none => none
      | some (k, r) =>
        match skipWs r with
        | ':' :: r2 =>
          match parseJsonVal fuel r2 with
          | none => none
          | some (v, r3) =>
            match skipWs r3 with
            | ',' :: r4 => (parseObjFields fuel r4).map (fun p => ((k, v) :: p.1, p.2))
            | c :: r4 => if c = '\x7d' then some ([(k, v)], r4) else none
            | [] => none
        | _ => none
    | _ => none

end

/-- `JSON.parse(text)`: `.ok` on a complete parse, `.error` modelling
the thrown `SyntaxError` otherwise. -/
def jsonParse (text : String) : Except String JsonValue :=
  match parseJsonVal (2 * text.length + 2) text.data with
  | some (v, rest) =>
    if skipWs rest = [] then .ok v
    else .error ("Unexpected non-whitespace character after JSON data: " ++ text)
  | none => .error ("Unexpected token in JSON: " ++ text)

/-! ## Config service (`services/configService.ts`)

The process environment is a partial map from variable name to raw
text; the `conf` store is an association list from key to stored JSON
value (storing `null` is possible and distinct from absence). -/

/-- `parseEnv(key)` from `util/helpers.ts`:
`JSON.parse(process.env[key] ?? "null")`. -/
def parseEnv (env : String → Option String) (key : String) : Except String JsonValue :=
  jsonParse (match env key with | some s => s | none => "null")

/-- `conf`'s `get(key)`: stored value, or `undefined` when absent. -/
def storeGet (store : List (String × JsonValue)) (key : String) : Option JsonValue :=
  List.lookup key store

/-- `conf`'s `set(key, value)`: replace the binding or append it. -/
def storeSet (store : List (String × JsonValue)) (key : String)
    (value : JsonValue) : List (String × JsonValue) :=
  match store with
  | [] => [(key, value)]
  | (k, v) :: rest =>
    if k = key then (key, value) :: rest else (k, v) :: storeSet rest key value

/-- The getter produced by `ConfigService.#buildGetter`: read the
persisted value, null-coalesce (`??`) into `parseEnv` of the setting's
environment variable, then `cast` the result; parse and cast failures
propagate.  In TypeScript the key parameter is statically restricted to
registry keys; a lookup of a foreign key would be a runtime
`TypeError`, modelled by the first error branch. -/
def configGet (enfW : Bool) (env : String → Option String)
    (store : List (String × JsonValue)) (key : String) : Except String JsonValue :=
  match getSetting enfW key with
  | none => .error ("Cannot read properties of undefined (reading " ++ key ++ ")")
  | some setting =>
    let value : Except String JsonValue :=
      match storeGet store key with
      | none => parseEnv env setting.envVar
      | some .null => parseEnv env setting.envVar
      | some v => .ok v
    match value with
    | .error e => .error e
    | .ok v => setting.cast v

/-- `ConfigService.set(key, value)`: reject unknown keys, validate,
and only then write.  The returned store is unchanged on every error
path. -/
def configSet (enfW : Bool) (store : List (String × JsonValue)) (key : String)
    (value : JsonValue) : Except String Unit × List (String × JsonValue) :=
  if hasKey enfW key then
    match getSetting enfW key with
    | some setting =>
      if setting.validate value then (.ok (), storeSet store key value)
      else (.error ("Cannot set " ++ key ++ ": Received value " ++ stringify value ++
        " does not match expected shape " ++ setting.shapeDebugStr ++ "."), store)
    | none =>
      (.error (key ++ " is not a valid key in the setting table."), store)
  else
    (.error (key ++ " is not a valid key in the setting table."), store)

/-- Modelled from the spec: the application name constant from
`server/config/constants`, a module absent from the sources; the spec
calls it "the application name" and the repository is NetTag. -/
def APP_NAME : String := "NetTag"

/-- A constructed `ConfigService` instance: its `conf` handle is
determined by the project name and the config (instance) name. -/
structure ConfigServiceInst where
  projectName : String
  configName : String
deriving DecidableEq

/-- The store path bound by the constructor:
`.../[APP_NAME]/[instanceName].conf`. -/
def confStorePath (inst : ConfigServiceInst) : String :=
  inst.projectName ++ "/" ++ inst.configName ++ ".conf"

/-- Process state of the `ConfigService` class: the single static
`#instance` field (`none` before the first successful `instantiate`). -/
structure CSProcessState where
  instanceOpt : Option ConfigServiceInst
deriving DecidableEq

/-- The `ConfigService` constructor body (reachable only through
`instantiate`, which owns the `#constructorCalledInternally` gate):
`APP_NAME` and `instanceName` must pass `isValidFilename` with default
flags, else a `TypeError` is thrown. -/
def constructConfigService (enfW : Bool) (instanceName : String) :
    Except String ConfigServiceInst :=
  if !(isValidFilename enfW APP_NAME) then
    .error "APP_NAME must be a legal directory name."
  else if !(isValidFilename enfW instanceName) then
    .error "ConfigService must have a valid instance name."
  else
    .ok { projectName := APP_NAME, configName := instanceName }

/-- `ConfigService.instantiate(instanceName)`: if the static
`#instance` field is already populated, return it (whatever name it
was created under); otherwise run the constructor and record the new
instance. -/
def instantiate (enfW : Bool) (st : CSProcessState) (instanceName : String) :
    Except String (ConfigServiceInst × CSProcessState) :=
  match st.instanceOpt with
  | some inst => .ok (inst, st)
  | none =>
    match constructConfigService enfW instanceName with
    | .error e => .error e
    | .ok inst => .ok (inst, ⟨some inst⟩)

/-! ## Helper lemmas -/

/-- `occursIn` decides Mathlib's contiguous-sublist relation. -/
theorem occursIn_iff_infix (pat l : List Char) : occursIn pat l = true ↔ pat <:+: l := by
  induction l with
  | nil =>
    simp only [occursIn, decide_eq_true_eq]
    constructor
    · rintro rfl; exact List.infix_refl []
    · intro h; exact List.eq_nil_of_infix_nil h
  | cons c t ih =>
    simp only [occursIn, Bool.or_eq_true, List.isPrefixOf_iff_prefix, ih,
      List.infix_cons_iff]

/-- `cast` synthesized by `buildSetting`: identity on accepted values,
shape error otherwise. -/
theorem buildSetting_cast_spec (f : JsonValue → Bool) (e d : String) (v : JsonValue) :
    (f v = true → (buildSetting f e d).cast v = .ok v) ∧
    (f v = false → (buildSetting f e d).cast v =
      .error ("Cast failed: value " ++ stringify v ++
        " does not match expected shape " ++ d ++ ".")) := by
  constructor <;> intro h <;> simp [buildSetting, h]

/-- `hasKey` agrees with definedness of `getSetting` on the concrete
registry. -/
theorem hasKey_eq_isSome (enfW : Bool) (key : String) :
    hasKey enfW key = (getSetting enfW key).isSome := by
  cases h1 : key == "trackedExtensions" <;>
  cases h2 : key == "trackedFilenames" <;>
  cases h3 : key == "trackedDirectories" <;>
  cases h4 : key == "interchangeableSlashes" <;>
  cases h5 : key == "enableThumbnailCache" <;>
  simp only [hasKey, getKeys, getSetting, settingTable, List.lookup, List.contains,
    List.elem, List.map, h1, h2, h3, h4, h5, Option.isSome]

/-- Parsing the literal text substituted for an unset variable. -/
theorem jsonParse_null : jsonParse "null" = .ok .null := rfl

/-! ## Claims -/

/-- C7: under every combination of the `allowSubDir` and
`interchangableSlashes` flags and of the Windows-compatibility rule
state, `isValidFilename` returns `false` on the empty string, on `"."`
and on `".."`. -/
theorem isValidFilename_rejects_reserved :
    ∀ (enfW allowSubDir interchangableSlashes : Bool),
      isValidFilename enfW "" allowSubDir interchangableSlashes = false ∧
      isValidFilename enfW "." allowSubDir interchangableSlashes = false ∧
      isValidFilename enfW ".." allowSubDir interchangableSlashes = false := by
  decide

/-- C8 counterexample: with `allowSubDir = true` and
Windows-compatibility rules active, a candidate ending in `'\'` is
accepted — the suffix rule `([ \.]$)` covers only `'.'` and space, and
no slash is blocked when subdirectories are allowed. -/
theorem trailing_backslash_accepted :
    isValidFilename true "a\\" true true = true ∧
    isValidFilename true "a\\" true false = true := by
  decide

/-- C8 (amended): with `allowSubDir = true` under Windows rules,
internal slashes are legal separators and the trailing-character rule
applies to the whole string for `'.'` and space only; a trailing `'\'`
is treated like an internal slash and accepted, and segments are not
re-validated separately (`"a./b"` passes although the segment `"a."`
alone would not). -/
theorem allowSubDir_suffix_rule (s : String) (i : Bool)
    (h : s.data.getLast? = some '.' ∨ s.data.getLast? = some ' ') :
    isValidFilename true s true i = false ∧
    isValidFilename true "a/b" true i = true ∧
    isValidFilename true "a\\b" true i = true ∧
    isValidFilename true "a\\" true i = true ∧
    isValidFilename true "a./b" true i = true := by
  refine ⟨?_, ?_, ?_, ?_, ?_⟩
  · have hb : badWinSuffix s = true := by
      unfold badWinSuffix
      rcases h with h | h <;> rw [h] <;> simp
    simp [isValidFilename, hb]
  all_goals cases i <;> decide

/-- C8 witness: the general suffix rule applied to `"a."`. -/
theorem allowSubDir_suffix_rule_witness :
    isValidFilename true "a." true true = false ∧
    isValidFilename true "a/b" true true = true ∧
    isValidFilename true "a\\b" true true = true ∧
    isValidFilename true "a\\" true true = true ∧
    isValidFilename true "a./b" true true = true :=
  allowSubDir_suffix_rule "a." true (Or.inl rfl)

/-- C9: `hasTraversalSequences(s, cw)` holds exactly when the literal
substring `"./"` or `"../"` occurs in `s`, or `cw` is set and `".\"`
or `"..\"` occurs; no decoding is performed, so the percent-encoded
traversal `"%2e%2e%2f"` is not detected. -/
theorem hasTraversalSequences_spec :
    (∀ (s : String) (cw : Bool),
      hasTraversalSequences s cw = true ↔
        ("./".data <:+: s.data ∨ "../".data <:+: s.data ∨
         (cw = true ∧ (".\\".data <:+: s.data ∨ "..\\".data <:+: s.data)))) ∧
    hasTraversalSequences "%2e%2e%2f" true = false := by
  constructor
  · intro s cw
    simp only [hasTraversalSequences, Bool.or_eq_true, Bool.and_eq_true,
      ← occursIn_iff_infix]
    tauto
  · decide

/-- C3 (code-bug exhibit): `trackedExtensions` is built with
`allowEmptyStr = true` and its validator's comments state that an
empty fragment string is then allowed, yet the element whose `data` is
`""` (with boolean `caseSensitive` and `interchangeableSlashes`) is
rejected: the empty string falls through to `isValidFilename`, which
always rejects `""`, and no branch accepts it. -/
theorem emptyFragment_rejected_despite_flag :
    (∀ enfW : Bool,
      (buildPathFragmentSetting enfW "TRACKED_EXTENSIONS" false true).validate
        (.obj [("whitelist", .bool false),
               ("pathFragments", .arr [.obj [("data", .str ""),
                 ("caseSensitive", .bool true),
                 ("interchangeableSlashes", .bool true)]])]) = false) ∧
    (∀ enfW : Bool, fragmentValid enfW false true
      (.obj [("data", .str ""), ("caseSensitive", .bool true),
             ("interchangeableSlashes", .bool true)]) = false) := by
  decide

/-- C4 counterexample: the registry also carries the key
`interchangeableSlashes`, which is none of the four names the claim
lists, and it has five keys, not four. -/
theorem settingTable_five_keys_counterexample :
    hasKey false "interchangeableSlashes" = true ∧
    hasKey true "interchangeableSlashes" = true ∧
    "interchangeableSlashes" ∉
      (["trackedExtensions", "trackedFilenames", "trackedDirectories",
        "enableThumbnailCache"] : List String) ∧
    (getKeys false).length = 5 ∧ (getKeys true).length = 5 := by
  decide

/-- C4 (amended): the registry contains exactly five settings —
`trackedExtensions` (subdirectories disallowed, empty-fragment flag
set), `trackedFilenames` (subdirectories disallowed, empty disallowed),
`trackedDirectories` (subdirectories allowed, empty disallowed),
`interchangeableSlashes` (plain boolean) and `enableThumbnailCache`
(plain boolean); `getKeys` returns exactly these names and `hasKey`
holds for a name iff it is one of them. -/
theorem settingTable_keys (enfW : Bool) (k : String) :
    getKeys enfW = ["trackedExtensions", "trackedFilenames",
      "trackedDirectories", "interchangeableSlashes", "enableThumbnailCache"] ∧
    (hasKey enfW k = true ↔
      k ∈ ["trackedExtensions", "trackedFilenames", "trackedDirectories",
        "interchangeableSlashes", "enableThumbnailCache"]) ∧
    getSetting enfW "trackedExtensions" =
      some (buildPathFragmentSetting enfW "TRACKED_EXTENSIONS" false true) ∧
    getSetting enfW "trackedFilenames" =
      some (buildPathFragmentSetting enfW "TRACKED_FILENAMES" false false) ∧
    getSetting enfW "trackedDirectories" =
      some (buildPathFragmentSetting enfW "TRACKED_DIRECTORIES" true false) ∧
    getSetting enfW "interchangeableSlashes" =
      some (buildSetting isBooleanValue "INTERCHANGEABLE_SLASHES" "boolean") ∧
    getSetting enfW "enableThumbnailCache" =
      some (buildSetting isBooleanValue "ENABLE_THUMBNAIL_CACHE" "boolean") := by
  refine ⟨rfl, ?_, rfl, rfl, rfl, rfl, rfl⟩
  simp [hasKey, getKeys, settingTable, List.contains]

/-- C5: for every setting reachable from the registry and every value,
`validate` true makes `cast` the identity with no error, and `validate`
false makes `cast` fail with the shape-mismatch message embedding the
stringified value and the setting's shape description. -/
theorem registry_cast_identity_or_error (enfW : Bool) (key : String) (s : Setting)
    (v : JsonValue) (h : getSetting enfW key = some s) :
    (s.validate v = true → s.cast v = .ok v) ∧
    (s.validate v = false → s.cast v =
      .error ("Cast failed: value " ++ stringify v ++
        " does not match expected shape " ++ s.shapeDebugStr ++ ".")) := by
  unfold getSetting settingTable at h
  simp only [List.lookup] at h
  repeat' split at h
  all_goals try exact Option.noConfusion h
  all_goals injection h with h
  all_goals subst h
  all_goals exact buildSetting_cast_spec _ _ _ v

/-- C5 witness: the `enableThumbnailCache` setting at value `null`. -/
theorem registry_cast_witness :
    ((buildSetting isBooleanValue "ENABLE_THUMBNAIL_CACHE" "boolean").validate .null = true →
      (buildSetting isBooleanValue "ENABLE_THUMBNAIL_CACHE" "boolean").cast .null =
        .ok .null) ∧
    ((buildSetting isBooleanValue "ENABLE_THUMBNAIL_CACHE" "boolean").validate .null = false →
      (buildSetting isBooleanValue "ENABLE_THUMBNAIL_CACHE" "boolean").cast .null =
        .error ("Cast failed: value " ++ stringify .null ++
          " does not match expected shape " ++
          (buildSetting isBooleanValue "ENABLE_THUMBNAIL_CACHE" "boolean").shapeDebugStr ++ ".")) :=
  registry_cast_identity_or_error false "enableThumbnailCache"
    (buildSetting isBooleanValue "ENABLE_THUMBNAIL_CACHE" "boolean") .null rfl

/-- C6: `set` is atomic with respect to the store: an unknown key
yields the key-not-found error and the unchanged store, a value failing
the setting's `validate` yields the shape-mismatch error and the
unchanged store, and only a validated value is written verbatim under
the key. -/
theorem configSet_atomic (enfW : Bool) (store : List (String × JsonValue))
    (key : String) (value : JsonValue) :
    (hasKey enfW key = false →
      configSet enfW store key value =
        (.error (key ++ " is not a valid key in the setting table."), store)) ∧
    (∀ s, getSetting enfW key = some s → s.validate value = false →
      configSet enfW store key value =
        (.error ("Cannot set " ++ key ++ ": Received value " ++ stringify value ++
          " does not match expected shape " ++ s.shapeDebugStr ++ "."), store)) ∧
    (∀ s, getSetting enfW key = some s → s.validate value = true →
      configSet enfW store key value = (.ok (), storeSet store key value)) := by
  refine ⟨?_, ?_, ?_⟩
  · intro h
    simp [configSet, h]
  · intro s hs hv
    have hk : hasKey enfW key = true := by rw [hasKey_eq_isSome, hs]; rfl
    simp [configSet, hk, hs, hv]
  · intro s hs hv
    have hk : hasKey enfW key = true := by rw [hasKey_eq_isSome, hs]; rfl
    simp [configSet, hk, hs, hv]

/-- C6 witness: the three branches of `set` at concrete inputs
(`badKey`, an invalid boolean value, a valid boolean value). -/
theorem configSet_atomic_witness :
    configSet false [] "badKey" (.bool true) =
      (.error ("badKey" ++ " is not a valid key in the setting table."), []) ∧
    configSet false [] "enableThumbnailCache" .null =
      (.error ("Cannot set " ++ "enableThumbnailCache" ++ ": Received value " ++
        stringify .null ++ " does not match expected shape " ++
        (buildSetting isBooleanValue "ENABLE_THUMBNAIL_CACHE" "boolean").shapeDebugStr ++
        "."), []) ∧
    configSet false [] "enableThumbnailCache" (.bool true) =
      (.ok (), storeSet [] "enableThumbnailCache" (.bool true)) :=
  ⟨(configSet_atomic false [] "badKey" (.bool true)).1 rfl,
   (configSet_atomic false [] "enableThumbnailCache" .null).2.1
     (buildSetting isBooleanValue "ENABLE_THUMBNAIL_CACHE" "boolean") rfl rfl,
   (configSet_atomic false [] "enableThumbnailCache" (.bool true)).2.2
     (buildSetting isBooleanValue "ENABLE_THUMBNAIL_CACHE" "boolean") rfl rfl⟩

/-- C2 counterexample: with no persisted value and the environment
variable holding the unparsable text `"tru"`, `get` fails with the
JSON parse error — the variable is not treated as the JSON literal
`null`, whose cast failure would read differently. -/
theorem unparsable_env_counterexample :
    configGet false
      (fun k => if k = "ENABLE_THUMBNAIL_CACHE" then some "tru" else none)
      [] "enableThumbnailCache" = .error ("Unexpected token in JSON: tru") ∧
    ("Unexpected token in JSON: tru" : String) ≠
      "Cast failed: value null does not match expected shape boolean." :=
  ⟨rfl, by decide⟩

/-- C2 (amended): with no persisted value, `get` parses the setting's
environment variable as JSON; an unset variable is treated as the JSON
literal `null` and handed to `cast`, while a set-but-unparsable
variable makes the parse failure itself propagate out of `get`; a
successfully parsed value is handed to `cast`, whose failure also
propagates. -/
theorem configGet_env_fallback (enfW : Bool) (env : String → Option String)
    (store : List (String × JsonValue)) (key : String) (s : Setting)
    (hk : getSetting enfW key = some s) (habs : storeGet store key = none) :
    (env s.envVar = none → configGet enfW env store key = s.cast .null) ∧
    (∀ t e, env s.envVar = some t → jsonParse t = .error e →
      configGet enfW env store key = .error e) ∧
    (∀ t v, env s.envVar = some t → jsonParse t = .ok v →
      configGet enfW env store key = s.cast v) := by
  refine ⟨?_, ?_, ?_⟩
  · intro he
    simp [configGet, hk, habs, parseEnv, he, jsonParse_null]
  · intro t e he hp
    simp [configGet, hk, habs, parseEnv, he, hp]
  · intro t v he hp
    simp [configGet, hk, habs, parseEnv, he, hp]

/-- C2 witness: `enableThumbnailCache` with an empty store and an
entirely unset environment resolves to the cast of JSON `null`. -/
theorem configGet_env_fallback_witness :
    configGet false (fun _ => none) [] "enableThumbnailCache" =
      (buildSetting isBooleanValue "ENABLE_THUMBNAIL_CACHE" "boolean").cast .null :=
  (configGet_env_fallback false (fun _ => none) [] "enableThumbnailCache"
    (buildSetting isBooleanValue "ENABLE_THUMBNAIL_CACHE" "boolean") rfl rfl).1 rfl

/-- C10: a persisted JSON `null` is handled by the null-coalescing
fallback, not a key-presence check: `get` then behaves exactly as with
no persisted value, parsing the setting's environment variable and
casting the result. -/
theorem configGet_persisted_null_falls_back (enfW : Bool)
    (env : String → Option String) (store store2 : List (String × JsonValue))
    (key : String) (s : Setting) (hk : getSetting enfW key = some s)
    (h1 : storeGet store key = some .null) (h2 : storeGet store2 key = none) :
    configGet enfW env store key = Except.bind (parseEnv env s.envVar) s.cast ∧
    configGet enfW env store key = configGet enfW env store2 key := by
  have e1 : configGet enfW env store key =
      Except.bind (parseEnv env s.envVar) s.cast := by
    rcases hp : parseEnv env s.envVar with e | v <;>
      simp [configGet, hk, h1, hp, Except.bind]
  have e2 : configGet enfW env store2 key =
      Except.bind (parseEnv env s.envVar) s.cast := by
    rcases hp : parseEnv env s.envVar with e | v <;>
      simp [configGet, hk, h2, hp, Except.bind]
  exact ⟨e1, e1.trans e2.symm⟩

/-- C10 witness: a store persisting `null` for `enableThumbnailCache`
is indistinguishable from the empty store. -/
theorem configGet_persisted_null_witness :
    configGet false
      (fun k => if k = "ENABLE_THUMBNAIL_CACHE" then some "true" else none)
      [("enableThumbnailCache", .null)] "enableThumbnailCache" =
      Except.bind
        (parseEnv (fun k => if k = "ENABLE_THUMBNAIL_CACHE" then some "true" else none)
          "ENABLE_THUMBNAIL_CACHE")
        (buildSetting isBooleanValue "ENABLE_THUMBNAIL_CACHE" "boolean").cast ∧
    configGet false
      (fun k => if k = "ENABLE_THUMBNAIL_CACHE" then some "true" else none)
      [("enableThumbnailCache", .null)] "enableThumbnailCache" =
      configGet false
        (fun k => if k = "ENABLE_THUMBNAIL_CACHE" then some "true" else none)
        [] "enableThumbnailCache" :=
  configGet_persisted_null_falls_back false
    (fun k => if k = "ENABLE_THUMBNAIL_CACHE" then some "true" else none)
    [("enableThumbnailCache", .null)] [] "enableThumbnailCache"
    (buildSetting isBooleanValue "ENABLE_THUMBNAIL_CACHE" "boolean") rfl rfl rfl

/-- C1 counterexample: after `instantiate("A")` the process holds no
instance for the name `"B"`, yet `instantiate("B")` returns the
existing instance bound to `"A"` instead of constructing one for
`"B"`. -/
theorem instantiate_ignores_name_counterexample :
    instantiate false ⟨none⟩ "A" =
      .ok (⟨"NetTag", "A"⟩, ⟨some ⟨"NetTag", "A"⟩⟩) ∧
    instantiate false ⟨some ⟨"NetTag", "A"⟩⟩ "B" =
      .ok (⟨"NetTag", "A"⟩, ⟨some ⟨"NetTag", "A"⟩⟩) ∧
    ("A" : String) ≠ "B" :=
  ⟨rfl, rfl, by decide⟩

/-- C1 (amended): `instantiate` maintains a single process-wide
instance: whenever any instance exists it is returned unchanged,
whatever name is passed (so two calls with the same name return the
identical instance); only when none exists is a new instance
constructed, bound to the application name and the call's instance
name. -/
theorem instantiate_global_singleton (enfW : Bool) (st : CSProcessState)
    (name : String) :
    (∀ inst, st.instanceOpt = some inst →
      instantiate enfW st name = .ok (inst, st)) ∧
    (st.instanceOpt = none → isValidFilename enfW APP_NAME = true →
      isValidFilename enfW name = true →
      instantiate enfW st name =
        .ok (⟨APP_NAME, name⟩, ⟨some ⟨APP_NAME, name⟩⟩)) := by
  constructor
  · intro inst h
    simp [instantiate, h]
  · intro h h1 h2
    simp [instantiate, h, constructConfigService, h1, h2]

/-- C1 witness: an occupied process state returns the existing
instance; an empty one constructs a new instance for the given name. -/
theorem instantiate_global_singleton_witness :
    instantiate false ⟨some ⟨"NetTag", "A"⟩⟩ "B" =
      .ok (⟨"NetTag", "A"⟩, ⟨some ⟨"NetTag", "A"⟩⟩) ∧
    instantiate false ⟨none⟩ "B" =
      .ok (⟨"NetTag", "B"⟩, ⟨some ⟨"NetTag", "B"⟩⟩) :=
  ⟨(instantiate_global_singleton false ⟨some ⟨"NetTag", "A"⟩⟩ "B").1
     ⟨"NetTag", "A"⟩ rfl,
   (instantiate_global_singleton false ⟨none⟩ "B").2 rfl rfl rfl⟩

end NetTag
